import Mathlib

/-!
# The sticker registry of the Discord bot

A shallow embedding of `BotsController/DiscordBot/sticker_manager.go` and of the
reload handler of `discord_bot.go`.

* Go strings are byte sequences (`GoString`); the code never assumes they are valid UTF-8.
* The standard library calls of the source are embedded by what their documentation
  states: `path/filepath` (`Base`, `Ext`, `Clean`, `Join`) with the Unix separator,
  and `encoding/json` on the level of the JSON document that a text denotes:
  `json.MarshalIndent` yields a document, `json.Unmarshal` consumes one, and a text
  that is not syntactically valid JSON is a separate case of the file content. What
  the two calls do with a Go value is embedded in full: the order of the keys, the
  tag names, `omitempty`, null for a nil slice, the coercion of strings to valid
  UTF-8, the lookup of a field by the folded key, repeated keys, the reuse of slice
  slots, nil for the document null, type errors that skip a value, and the limit
  on the nesting depth of a text.
* The world outside the process (network, file system calls, clock) enters every
  operation as an explicit argument.
* `sync.RWMutex` is a boolean field of the manager; all calls run to their end one
  after the other, and a `Lock` on a held mutex never returns (`Outcome.blocked`).
-/

namespace DiscordBot

/-! ## Go strings and UTF-8 -/

/-- A Go string is an arbitrary sequence of bytes. -/
abbrev GoString := List UInt8

/-- The bytes of a string literal of the source. -/
def bytes (s : String) : GoString := s.toUTF8.data.toList

/-- Bytewise comparison of Go strings, the order of the `<=` operator on strings. -/
def strLe : GoString → GoString → Bool
  | [], _ => true
  | _ :: _, [] => false
  | a :: as, b :: bs => if a < b then true else if b < a then false else strLe as bs

/-- Whether byte b lies in the closed range from lo to hi. -/
def inRange (b lo hi : UInt8) : Bool := decide (lo ≤ b) && decide (b ≤ hi)

/-- Whether the next n bytes exist and are UTF-8 continuation bytes (0x80 to 0xBF). -/
def contBytes : Nat → GoString → Bool
  | 0, _ => true
  | _ + 1, [] => false
  | n + 1, b :: r => inRange b 0x80 0xBF && contBytes n r

/-- Whether the second byte exists and is in the accept range of the leading byte,
and `more` continuation bytes follow it. -/
def acceptTail (lo hi : UInt8) (more : Nat) : GoString → Bool
  | [] => false
  | b :: r => inRange b lo hi && contBytes more r

/-- Width of the rune at the head of s as `utf8.DecodeRuneInString` reports it for a
well-formed encoding (1 to 4), and 0 when s is empty or its head is not a
well-formed encoding (Go then reports `RuneError` with width 1). The ranges are
those of the tables `first` and `acceptRanges` of package `unicode/utf8`. -/
def runeWidth : GoString → Nat
  | [] => 0
  | b0 :: r =>
    if b0 < 0x80 then 1
    else if inRange b0 0xC2 0xDF then (if acceptTail 0x80 0xBF 0 r then 2 else 0)
    else if b0 = 0xE0 then (if acceptTail 0xA0 0xBF 1 r then 3 else 0)
    else if inRange b0 0xE1 0xEC then (if acceptTail 0x80 0xBF 1 r then 3 else 0)
    else if b0 = 0xED then (if acceptTail 0x80 0x9F 1 r then 3 else 0)
    else if inRange b0 0xEE 0xEF then (if acceptTail 0x80 0xBF 1 r then 3 else 0)
    else if b0 = 0xF0 then (if acceptTail 0x90 0xBF 2 r then 4 else 0)
    else if inRange b0 0xF1 0xF3 then (if acceptTail 0x80 0xBF 2 r then 4 else 0)
    else if b0 = 0xF4 then (if acceptTail 0x80 0x8F 2 r then 4 else 0)
    else 0

/-- Loop of `utf8.ValidString`; k counts the bytes of the current rune still to skip. -/
def validFrom : Nat → GoString → Bool
  | _, [] => true
  | k + 1, _ :: r => validFrom k r
  | 0, b :: r =>
    match runeWidth (b :: r) with
    | 0 => false
    | n + 1 => validFrom n r

/-- The function `utf8.ValidString`. -/
def ValidString (s : GoString) : Bool := validFrom 0 s

/-- The UTF-8 encoding of U+FFFD, the replacement rune. -/
def replacementRune : GoString := [0xEF, 0xBF, 0xBD]

/-- Loop of the string encoder of `encoding/json`: well-formed runes are kept, every
byte that does not start one is replaced by U+FFFD; k counts the bytes of the
current rune still to copy. -/
def coerceFrom : Nat → GoString → GoString
  | _, [] => []
  | k + 1, b :: r => b :: coerceFrom k r
  | 0, b :: r =>
    match runeWidth (b :: r) with
    | 0 => replacementRune ++ coerceFrom 0 r
    | n + 1 => b :: coerceFrom n r

/-- The string that the JSON text written for a Go string denotes: "String values
encode as JSON strings coerced to valid UTF-8, replacing invalid bytes with the
Unicode replacement rune" (package documentation of `encoding/json`). -/
def coerceUTF8 (s : GoString) : GoString := coerceFrom 0 s

/-- Case folding of a JSON object key as `encoding/json` does before it looks up a
struct field (`foldName`): ASCII letters go to upper case, and the only two
runes outside ASCII that fold to an ASCII letter do so, U+017F (bytes C5 BF) to S
and U+212A (bytes E2 84 AA) to K. Every other byte is kept; such a byte never
equals a byte of a folded ASCII field name. -/
def foldFrom : Nat → GoString → GoString
  | _, [] => []
  | k + 1, _ :: r => foldFrom k r
  | 0, b :: r =>
    if b = 0xC5 ∧ r.head? = some 0xBF then 0x53 :: foldFrom 1 r
    else if b = 0xE2 ∧ r.head? = some 0x84 ∧ (r.drop 1).head? = some 0xAA then
      0x4B :: foldFrom 2 r
    else (if inRange b 0x61 0x7A then b - 0x20 else b) :: foldFrom 0 r

/-- The folded form of a key; k of `foldFrom` counts the bytes of a folded rune still
to skip. -/
def foldName (s : GoString) : GoString := foldFrom 0 s

/-! ## path/filepath, Unix separator -/

/-- The function `os.IsPathSeparator` on Unix. -/
def isSep (b : UInt8) : Bool := b == 0x2F

/-- The function `filepath.Base`: trailing separators are stripped, the last element
is returned; the empty path gives ".", a path of separators only gives "/". -/
def Base (path : GoString) : GoString :=
  if path = [] then bytes "."
  else
    let stripped := (path.reverse.dropWhile isSep).reverse
    let last := (stripped.reverse.takeWhile (fun b => !isSep b)).reverse
    if last = [] then bytes "/" else last

/-- The function `filepath.Ext`: the suffix beginning at the final dot in the final
element of the path, empty if there is no dot. -/
def Ext (path : GoString) : GoString :=
  let lastRev := path.reverse.takeWhile (fun b => !isSep b)
  if lastRev.contains 0x2E then
    ((lastRev.takeWhile (fun b => b != 0x2E)) ++ [0x2E]).reverse
  else []

/-- The elements between separators (`strings.Split` on "/"). -/
def splitSep : GoString → List GoString
  | [] => [[]]
  | b :: r =>
    if isSep b then [] :: splitSep r
    else
      match splitSep r with
      | [] => [[b]]
      | e :: es => (b :: e) :: es

/-- The element loop of `filepath.Clean`. The second argument is the output so far,
last element first. Empty and "." elements are dropped; ".." removes the last
real element, is kept in front of an unrooted path when there is none, and is
dropped at the root. -/
def cleanElems (rooted : Bool) : List GoString → List GoString → List GoString
  | [], out => out
  | e :: es, out =>
    if e = [] ∨ e = bytes "." then cleanElems rooted es out
    else if e = bytes ".." then
      match out with
      | top :: rest =>
        if top = bytes ".." then cleanElems rooted es (e :: out)
        else cleanElems rooted es rest
      | [] => if rooted then cleanElems rooted es [] else cleanElems rooted es [e]
    else cleanElems rooted es (e :: out)

/-- The function `filepath.Clean`. -/
def Clean (path : GoString) : GoString :=
  if path = [] then bytes "."
  else
    let rooted := path.head?.any isSep
    let out := (cleanElems rooted (splitSep path) []).reverse
    let body := (bytes "/").intercalate out
    if rooted then bytes "/" ++ body
    else if body = [] then bytes "." else body

/-- The function `filepath.Join` of two elements: empty elements are ignored, the
rest is joined by the separator and cleaned; the result is empty only when both
elements are. -/
def Join (a b : GoString) : GoString :=
  if a = [] then (if b = [] then [] else Clean b)
  else Clean (a ++ bytes "/" ++ b)

/-! ## The data model -/

/-- The struct `Sticker`. A slice is `none` when nil and `some l` otherwise. -/
structure Sticker where
  Name : GoString
  URL : GoString
  Tags : Option (List GoString)
  AddedBy : GoString
  AddedAt : GoString
  LocalPath : GoString
deriving DecidableEq, Repr

/-- The zero value `Sticker{}`. -/
def Sticker.zero : Sticker := ⟨[], [], none, [], [], []⟩

/-- The contents of a non-nil `map[string]Sticker`: finitely many entries with
pairwise different keys. -/
abbrev StickerMap := AList (fun _ : GoString => Sticker)

instance (priority := 2000) instDecidableEqStickerMap : DecidableEq StickerMap := fun a b =>
  decidable_of_iff (a.entries = b.entries) AList.ext_iff.symm

/-- Reading `m[k]` with the comma-ok form; reading a nil map finds nothing. -/
def mapGet (m : Option StickerMap) (k : GoString) : Option Sticker :=
  match m with
  | none => none
  | some l => l.lookup k

/-- The builtin `len` of a map. -/
def mapLen (m : Option StickerMap) : Nat :=
  match m with
  | none => 0
  | some l => l.entries.length

/-- The keys of a map. -/
def mapKeys (m : Option StickerMap) : List GoString :=
  match m with
  | none => []
  | some l => l.keys

/-- The values of a map. -/
def mapValues (m : Option StickerMap) : List Sticker :=
  match m with
  | none => []
  | some l => l.entries.map (fun e => e.2)

/-! ## encoding/json on the level of documents -/

/-- A JSON document. Strings carry the bytes that the decoder hands to Go, object
members keep their order and may repeat a key. -/
inductive JSON where
  | null
  | bool (b : Bool)
  | number (literal : GoString)
  | string (s : GoString)
  | array (elems : List JSON)
  | object (members : List (GoString × JSON))

/-- What a file holds: a text that is not syntactically valid JSON, or a JSON text,
given by the document it denotes. -/
inductive FileData where
  | malformed (raw : GoString)
  | document (doc : JSON)

mutual
/-- The nesting depth of a document: the largest number of arrays and objects that
are open at once while its text is read. -/
def JSON.depth : JSON → Nat
  | .array es => 1 + depthList es
  | .object ms => 1 + depthMembers ms
  | _ => 0
/-- The largest nesting depth among the elements of an array. -/
def depthList : List JSON → Nat
  | [] => 0
  | e :: es => max e.depth (depthList es)
/-- The largest nesting depth among the values of the members of an object. -/
def depthMembers : List (GoString × JSON) → Nat
  | [] => 0
  | kv :: ms => max kv.2.depth (depthMembers ms)
end

/-- The constant `maxNestingDepth` of the scanner of `encoding/json`: a text with more
arrays and objects open at once is rejected with the syntax error "exceeded max
depth". -/
def maxNestingDepth : Nat := 10000

/-- The two ways in which `json.Unmarshal` fails here: `*json.SyntaxError`, reported
by the validating scan before anything is stored (a text that is not JSON, or one
nested deeper than `maxNestingDepth`), and `*json.UnmarshalTypeError`, reported
after the whole document has been stored as far as possible. -/
inductive UnmarshalError where
  | malformedText
  | typeMismatch
deriving DecidableEq, Repr

/-- The document written for a `[]string`: null for the nil slice, an array of
strings otherwise. -/
def marshalTags (tags : Option (List GoString)) : JSON :=
  match tags with
  | none => .null
  | some l => .array (l.map (fun t => .string (coerceUTF8 t)))

/-- The document written for one `Sticker`: the fields in declaration order under
their tag names, a nil slice as null, and `local_path` left out when empty
(`omitempty`). -/
def marshalSticker (s : Sticker) : JSON :=
  .object
    ([ (bytes "name", .string (coerceUTF8 s.Name)),
       (bytes "url", .string (coerceUTF8 s.URL)),
       (bytes "tags", marshalTags s.Tags),
       (bytes "added_by", .string (coerceUTF8 s.AddedBy)),
       (bytes "added_at", .string (coerceUTF8 s.AddedAt)) ] ++
     (if s.LocalPath = [] then [] else [(bytes "local_path", .string (coerceUTF8 s.LocalPath))]))

/-- The entries of a map in the order of their keys, as the encoder visits them. -/
def sortedEntries (m : StickerMap) : List (Sigma (fun _ : GoString => Sticker)) :=
  m.entries.insertionSort (fun a b => strLe a.1 b.1 = true)

/-- The call `json.MarshalIndent(sm.stickers, "", "  ")`: a nil map is written as
null, any other as an object with one member per entry, keys sorted. The call
cannot fail for this type. -/
def Marshal (m : Option StickerMap) : JSON :=
  match m with
  | none => .null
  | some l => .object ((sortedEntries l).map (fun e => (coerceUTF8 e.1, marshalSticker e.2)))

/-- Storing a JSON value into a Go string that holds cur: a string is stored, null
has no effect, anything else saves a type error and the target is skipped. -/
def storeString (v : JSON) (cur : GoString) : GoString × Bool :=
  match v with
  | .string s => (s, false)
  | .null => (cur, false)
  | _ => (cur, true)

/-- Storing the elements of a JSON array into the slots of a string slice, slot by
slot; a slot that the slice did not have before holds the empty string. -/
def storeElems : List JSON → List GoString → List GoString × Bool
  | [], _ => ([], false)
  | e :: es, slots =>
    let r := storeString e (slots.headD [])
    let rs := storeElems es slots.tail
    (r.1 :: rs.1, r.2 || rs.2)

/-- Storing a JSON value into a `[]string` that holds cur and whose backing array has
the slots `spare` beyond its length: null gives the nil slice, the empty array a
new empty slice, an array reuses the slots from the front and cuts the length
to the number of elements, anything else saves a type error. -/
def storeTags (v : JSON) (cur : Option (List GoString)) (spare : List GoString) :
    Option (List GoString) × List GoString × Bool :=
  match v with
  | .null => (none, [], false)
  | .array [] => (some [], [], false)
  | .array es =>
    let slots := cur.getD [] ++ spare
    let r := storeElems es slots
    (some r.1, slots.drop es.length, r.2)
  | _ => (cur, spare, true)

/-- The fields of `Sticker`. -/
inductive Field where
  | name | url | tags | addedBy | addedAt | localPath
deriving DecidableEq, Repr

/-- The field that an object key selects: the one whose tag name equals the key
under case folding, if any. -/
def fieldOf (key : GoString) : Option Field :=
  let k := foldName key
  if k = bytes "NAME" then some .name
  else if k = bytes "URL" then some .url
  else if k = bytes "TAGS" then some .tags
  else if k = bytes "ADDED_BY" then some .addedBy
  else if k = bytes "ADDED_AT" then some .addedAt
  else if k = bytes "LOCAL_PATH" then some .localPath
  else none

/-- The decoder while it fills one `Sticker`: the struct so far, the slots of the
backing array of Tags beyond its length, and whether a type error was saved. -/
structure Filling where
  sticker : Sticker
  spare : List GoString
  failed : Bool

/-- Storing one member of an object into the struct; an unknown key is skipped. -/
def storeMember (f : Filling) (kv : GoString × JSON) : Filling :=
  match fieldOf kv.1 with
  | none => f
  | some .name =>
    let r := storeString kv.2 f.sticker.Name
    { f with sticker := { f.sticker with Name := r.1 }, failed := f.failed || r.2 }
  | some .url =>
    let r := storeString kv.2 f.sticker.URL
    { f with sticker := { f.sticker with URL := r.1 }, failed := f.failed || r.2 }
  | some .tags =>
    let r := storeTags kv.2 f.sticker.Tags f.spare
    { sticker := { f.sticker with Tags := r.1 }, spare := r.2.1, failed := f.failed || r.2.2 }
  | some .addedBy =>
    let r := storeString kv.2 f.sticker.AddedBy
    { f with sticker := { f.sticker with AddedBy := r.1 }, failed := f.failed || r.2 }
  | some .addedAt =>
    let r := storeString kv.2 f.sticker.AddedAt
    { f with sticker := { f.sticker with AddedAt := r.1 }, failed := f.failed || r.2 }
  | some .localPath =>
    let r := storeString kv.2 f.sticker.LocalPath
    { f with sticker := { f.sticker with LocalPath := r.1 }, failed := f.failed || r.2 }

/-- Storing a JSON value into a new zero `Sticker`, as done for every member of the
top-level object: an object fills the fields member by member, null has no
effect, anything else saves a type error. -/
def storeSticker (v : JSON) : Sticker × Bool :=
  match v with
  | .object ms =>
    let f := ms.foldl storeMember ⟨Sticker.zero, [], false⟩
    (f.sticker, f.failed)
  | .null => (Sticker.zero, false)
  | _ => (Sticker.zero, true)

/-- Storing one member of the top-level object into the map: the value is decoded
into a new element, which then replaces whatever the key held, also when a type
error was saved on the way. -/
def storeEntry (acc : StickerMap × Bool) (kv : GoString × JSON) : StickerMap × Bool :=
  let r := storeSticker kv.2
  (acc.1.insert kv.1 r.1, acc.2 || r.2)

/-- The call `json.Unmarshal(data, &sm.stickers)` where the map holds cur: the new
value of the map and the error returned. The validating scan comes first: a
malformed text, and a text nested deeper than `maxNestingDepth`, is a syntax
error and changes nothing. Then the document null sets the map to nil. An object
is stored member by member into the map (made first if nil), and a type error is
reported at the end. Any other document is a type error and changes nothing. -/
def Unmarshal (data : FileData) (cur : Option StickerMap) :
    Option StickerMap × Option UnmarshalError :=
  match data with
  | .malformed _ => (cur, some .malformedText)
  | .document doc =>
    if maxNestingDepth < doc.depth then (cur, some .malformedText)
    else
      match doc with
      | .null => (none, none)
      | .object ms =>
        let r := ms.foldl storeEntry (cur.getD ∅, false)
        (some r.1, if r.2 then some .typeMismatch else none)
      | _ => (cur, some .typeMismatch)

/-! ## The process state -/

/-- The struct `StickerManager`. The map is `none` when nil; `mutex` tells whether
the write lock of `sync.RWMutex` is held. -/
structure StickerManager where
  stickers : Option StickerMap
  mutex : Bool
  filePath : GoString

/-- The package variables `manager` and `once`, together with the files the code
touches: the persistence file (`none` when it does not exist) and the image files
written by uploads, the latest first. Only one manager is ever constructed, so
every pointer to a manager is a pointer to `manager`. -/
structure Process where
  manager : Option StickerManager
  onceDone : Bool
  file : Option FileData
  images : List (GoString × GoString)

/-- A process whose manager is sm. -/
def Process.withManager (p : Process) (sm : StickerManager) : Process :=
  { p with manager := some sm }

/-- The sticker map seen through the manager pointer, nil when there is no manager. -/
def Process.stickers (p : Process) : Option StickerMap :=
  match p.manager with
  | none => none
  | some sm => sm.stickers

/-- The cause formatted by the verb of `fmt.Errorf`: the text of an error of the
operating system or of the network, or an error of `json.Unmarshal`. -/
inductive Cause where
  | os (text : GoString)
  | json (e : UnmarshalError)
deriving DecidableEq, Repr

/-- An error built by `fmt.Errorf`: a complete message, or a message that ends in a
colon followed by the formatted cause. -/
inductive Error where
  | text (msg : GoString)
  | wrap (msg : GoString) (cause : Cause)
deriving DecidableEq, Repr

/-- How a call ends: it returns a value, it waits for the mutex for ever, or it
panics. Each case carries the process state it leaves. -/
inductive Outcome (α : Type) where
  | returned (val : α) (p : Process)
  | blocked (p : Process)
  | panicked (p : Process)

/-- The process state an outcome leaves. -/
def Outcome.state {α : Type} : Outcome α → Process
  | .returned _ p => p
  | .blocked p => p
  | .panicked p => p

/-- The value returned, if the call returned. -/
def Outcome.value {α : Type} : Outcome α → Option α
  | .returned v _ => some v
  | .blocked _ => none
  | .panicked _ => none

/-- The result of `os.WriteFile`: success, or an error, with what is then left of
the file. -/
inductive WriteResult where
  | ok
  | failed (err : GoString) (left : Option FileData)

/-! ## The operations of sticker_manager.go -/

/-- The method `loadStickers`. The argument is the error of `os.ReadFile`, if any. -/
def loadStickers (p : Process) (readErr : Option GoString) : Outcome (Option Error) :=
  match p.manager with
  | none => .panicked p
  | some sm =>
    if sm.mutex then .blocked p
    else
      let locked := { sm with mutex := true }
      match p.file with
      | none => .returned none (p.withManager { locked with mutex := false })
      | some data =>
        match readErr with
        | some e =>
          .returned (some (.wrap (bytes "Failed to read sticker file") (.os e)))
            (p.withManager { locked with mutex := false })
        | none =>
          let r := Unmarshal data locked.stickers
          let stored := { locked with stickers := r.1 }
          match r.2 with
          | some e =>
            .returned (some (.wrap (bytes "Failed to parse sticker data") (.json e)))
              (p.withManager { stored with mutex := false })
          | none => .returned none (p.withManager { stored with mutex := false })

/-- The method `saveStickers`. It starts with `sm.mutex.Lock()`. -/
def saveStickers (p : Process) (wr : WriteResult) : Outcome (Option Error) :=
  match p.manager with
  | none => .panicked p
  | some sm =>
    if sm.mutex then .blocked p
    else
      let locked := { sm with mutex := true }
      let data := Marshal locked.stickers
      match wr with
      | .failed e left =>
        .returned (some (.wrap (bytes "Failed to save sticker file") (.os e)))
          { p with manager := some { locked with mutex := false }, file := left }
      | .ok =>
        .returned none
          { p with manager := some { locked with mutex := false },
                   file := some (.document data) }

/-- Running the deferred `sm.mutex.Unlock()` of a method. -/
def Process.unlock (p : Process) : Process :=
  match p.manager with
  | none => p
  | some sm => p.withManager { sm with mutex := false }

/-- The method `AddSticker`. It takes the write lock, and calls `saveStickers` before
the deferred unlock has run. -/
def AddSticker (p : Process) (sticker : Sticker) (wr : WriteResult) : Outcome (Option Error) :=
  match p.manager with
  | none => .panicked p
  | some sm =>
    if sm.mutex then .blocked p
    else
      let locked := { sm with mutex := true }
      if (mapGet locked.stickers sticker.Name).isSome then
        .returned (some (.text (bytes "Sticker '" ++ sticker.Name ++ bytes "' already exists")))
          (p.withManager { locked with mutex := false })
      else
        match locked.stickers with
        | none => .panicked (p.withManager { locked with mutex := false })
        | some m =>
          let stored := { locked with stickers := some (m.insert sticker.Name sticker) }
          match saveStickers (p.withManager stored) wr with
          | .returned err q => .returned err q.unlock
          | .blocked q => .blocked q
          | .panicked q => .panicked q.unlock

/-- The method `GetSticker`. It takes the read lock, which waits while the write lock
is held. -/
def GetSticker (p : Process) (name : GoString) : Outcome (Sticker × Option Error) :=
  match p.manager with
  | none => .panicked p
  | some sm =>
    if sm.mutex then .blocked p
    else
      match mapGet sm.stickers name with
      | none =>
        .returned (Sticker.zero, some (.text (bytes "Sticker '" ++ name ++ bytes "' not found"))) p
      | some sticker => .returned (sticker, none) p

/-- The method `ListStickers`; the order of the result is not specified. -/
def ListStickers (p : Process) : Outcome (List Sticker) :=
  match p.manager with
  | none => .panicked p
  | some sm =>
    if sm.mutex then .blocked p
    else .returned (mapValues sm.stickers) p

/-- The method `DeleteSticker`. It takes the write lock, and calls `saveStickers`
before the deferred unlock has run. -/
def DeleteSticker (p : Process) (name : GoString) (wr : WriteResult) : Outcome (Option Error) :=
  match p.manager with
  | none => .panicked p
  | some sm =>
    if sm.mutex then .blocked p
    else
      let locked := { sm with mutex := true }
      if (mapGet locked.stickers name).isNone then
        .returned (some (.text (bytes "Sticker '" ++ name ++ bytes "' not found")))
          (p.withManager { locked with mutex := false })
      else
        let stored := { locked with stickers := locked.stickers.map (fun m => m.erase name) }
        match saveStickers (p.withManager stored) wr with
        | .returned err q => .returned err q.unlock
        | .blocked q => .blocked q
        | .panicked q => .panicked q.unlock

/-- The fields of `discordgo.MessageAttachment` that the code reads. -/
structure MessageAttachment where
  URL : GoString
  Filename : GoString

/-- What the world answers during an upload: `http.Get` (an error or the body),
`os.Create` (an error, if any), `io.Copy` (an error with the bytes written
before it, if any), `time.Now().Format(time.RFC3339)`, and `os.WriteFile` of the
save. -/
structure UploadEnv where
  get : Except GoString GoString
  create : Option GoString
  copy : Option (GoString × GoString)
  now : GoString
  write : WriteResult

/-- The local path that `HandleUploadedImage` computes ("Ensure filename is safe",
"Create local file path"). -/
def localPath (name filename : GoString) : GoString :=
  let safeName := Base name
  let ext := if Ext filename = [] then bytes ".png" else Ext filename
  Join (bytes "resources") (safeName ++ ext)

/-- The method `HandleUploadedImage`. The lock is released before `saveStickers` is
called. -/
def HandleUploadedImage (p : Process) (name : GoString) (attachment : MessageAttachment)
    (addedBy : GoString) (env : UploadEnv) : Outcome (Option Error) :=
  match env.get with
  | .error e => .returned (some (.wrap (bytes "Failed to download image") (.os e))) p
  | .ok body =>
    let path := localPath name attachment.Filename
    match env.create with
    | some e => .returned (some (.wrap (bytes "Failed to create file") (.os e))) p
    | none =>
      match env.copy with
      | some (e, written) =>
        .returned (some (.wrap (bytes "Failed to save image") (.os e)))
          { p with images := (path, written) :: p.images }
      | none =>
        let q := { p with images := (path, body) :: p.images }
        let sticker : Sticker :=
          { Name := name, URL := attachment.URL, Tags := none, LocalPath := path,
            AddedBy := addedBy, AddedAt := env.now }
        match q.manager with
        | none => .panicked q
        | some sm =>
          if sm.mutex then .blocked q
          else
            let locked := { sm with mutex := true }
            match locked.stickers with
            | none => .panicked (q.withManager locked)
            | some m =>
              let stored := { locked with stickers := some (m.insert name sticker) }
              saveStickers (q.withManager { stored with mutex := false }) env.write

/-- What the world answers during initialization: `os.Getwd` (an error or the
directory), `os.MkdirAll` (an error, if any) and `os.ReadFile` of the load (an
error, if any). -/
structure InitEnv where
  getwd : Except GoString GoString
  mkdirAll : Option GoString
  read : Option GoString

/-- The manager that `InitStickerManager` constructs in the directory dir. -/
def freshManager (dir : GoString) : StickerManager :=
  { stickers := some ∅, mutex := false, filePath := Join dir (bytes "stickers.json") }

/-- The function `InitStickerManager`. The error variable is local to the call; the
body given to `once.Do` runs only while `once` has not been used. -/
def InitStickerManager (p : Process) (env : InitEnv) : Outcome (Option Error) :=
  if p.onceDone then .returned none p
  else
    let q := { p with onceDone := true }
    match env.getwd with
    | .error e => .returned (some (.wrap (bytes "Failed to get current directory") (.os e))) q
    | .ok currentDir =>
      match env.mkdirAll with
      | some e =>
        .returned (some (.wrap (bytes "Failed to create resources directory") (.os e))) q
      | none =>
        match loadStickers (q.withManager (freshManager currentDir)) env.read with
        | .returned _ r => .returned none r
        | .blocked r => .blocked r
        | .panicked r => .panicked r

/-- The function `GetStickerManager`. -/
def GetStickerManager (p : Process) : Option StickerManager := p.manager

/-- The message that `handleReloadCommand` sends to the channel. -/
inductive Reply where
  | reloadError (err : Error)
  | reloaded (previous current : Nat)
deriving DecidableEq, Repr

/-- The function `handleReloadCommand`. The pointer sm is read before the call of
`InitStickerManager`, which never writes through an existing manager, so both
counts are taken from the same manager. -/
def handleReloadCommand (p : Process) (env : InitEnv) : Outcome Reply :=
  match GetStickerManager p with
  | none => .panicked p
  | some sm =>
    let count := mapLen sm.stickers
    match InitStickerManager p env with
    | .returned (some err) q => .returned (.reloadError err) q
    | .returned none q => .returned (.reloaded count (mapLen sm.stickers)) q
    | .blocked q => .blocked q
    | .panicked q => .panicked q

/-- A process at its start: no manager, `once` unused, the given persistence file. -/
def Process.start (file : Option FileData) : Process :=
  { manager := none, onceDone := false, file := file, images := [] }

/-- A call of one of the three mutating operations, with what the world answers. -/
inductive Call where
  | add (sticker : Sticker) (wr : WriteResult)
  | delete (name : GoString) (wr : WriteResult)
  | upload (name : GoString) (attachment : MessageAttachment) (addedBy : GoString)
      (env : UploadEnv)

/-- The outcome of one call. -/
def Call.perform (p : Process) : Call → Outcome (Option Error)
  | .add sticker wr => AddSticker p sticker wr
  | .delete name wr => DeleteSticker p name wr
  | .upload name attachment addedBy env => HandleUploadedImage p name attachment addedBy env

/-- The state after a sequence of calls. A panic ends the process, so the calls
after it do not run; a blocked call leaves the mutex held for the calls after it. -/
def run (p : Process) : List Call → Process
  | [] => p
  | c :: cs =>
    match c.perform p with
    | .panicked q => q
    | .returned _ q => run q cs
    | .blocked q => run q cs

/-- Whether every string of a sticker is valid UTF-8. -/
def validSticker (s : Sticker) : Bool :=
  ValidString s.Name && ValidString s.URL && (s.Tags.getD []).all ValidString &&
    ValidString s.AddedBy && ValidString s.AddedAt && ValidString s.LocalPath

/-- Whether every key of a map and every string of its stickers is valid UTF-8. -/
def validMap (m : Option StickerMap) : Bool :=
  (mapKeys m).all ValidString && (mapValues m).all validSticker

/-- The property of C7: the set of keys of the map equals the set of Name fields of
its values. -/
def KeysEqNames (m : Option StickerMap) : Prop :=
  ∀ x, x ∈ mapKeys m ↔ x ∈ (mapValues m).map (fun s => s.Name)

/-- Every key of the map holds a record whose Name is that key. -/
def Keyed (m : Option StickerMap) : Prop :=
  ∀ k s, mapGet m k = some s → s.Name = k

/-- Every entry of the top-level object of the file, if the file holds a JSON object,
decodes to a record whose Name is the key of the entry. -/
def FileKeyed : Option FileData → Prop
  | some (.document (.object ms)) => ∀ kv ∈ ms, (storeSticker kv.2).1.Name = kv.1
  | _ => True

/-! ## Data of the examples -/

/-- A sticker named "a", used in the witnesses. -/
def stickerA : Sticker := ⟨bytes "a", bytes "http://x/a.png", none, bytes "bob", bytes "t0", []⟩

/-- A manager holding the sticker "a", used in the witnesses. -/
def managerA : StickerManager :=
  { stickers := some ((∅ : StickerMap).insert (bytes "a") stickerA), mutex := false,
    filePath := bytes "/bot/stickers.json" }

/-- A process whose registry holds the sticker "a", used in the witnesses. -/
def registryA : Process :=
  { manager := some managerA, onceDone := true, file := none, images := [] }

/-- The process after a successful start without a persistence file: an empty
registry. -/
def emptyRegistry : Process :=
  { manager := some { stickers := some ∅, mutex := false, filePath := bytes "/bot/stickers.json" },
    onceDone := true, file := none, images := [] }

/-- A sticker named "ok", used in the witnesses. -/
def stickerOk : Sticker := ⟨bytes "ok", bytes "http://x/y.png", none, [], [], []⟩

/-- A persistence file that holds exactly the sticker "a". -/
def fileA : FileData := .document (Marshal managerA.stickers)

/-- The answers of a world in which an upload succeeds at every step. -/
def uploadOk : UploadEnv :=
  { get := .ok (bytes "PNG2"), create := none, copy := none, now := bytes "2024-05-01T10:00:00Z",
    write := .ok }

/-- A map with two stickers: nil and non-empty Tags, empty and non-empty LocalPath,
and text outside ASCII. -/
def sampleMap : StickerMap :=
  ((∅ : StickerMap).insert (bytes "b")
      ⟨bytes "b", bytes "http://x/b.png", none, bytes "bob", bytes "2024-05-01T10:00:00Z",
        bytes "resources/b.png"⟩).insert (bytes "héllo")
    ⟨bytes "héllo", bytes "http://x/<a>", some [bytes "x", []], [], [], []⟩

/-- A map whose only name is the single byte 0xFF, which is not valid UTF-8. -/
def invalidNameMap : StickerMap :=
  (∅ : StickerMap).insert [0xFF] ⟨[0xFF], bytes "http://x/y.png", none, [], [], []⟩

/-- The answers of a world in which initialization meets no error. -/
def initOk : InitEnv := { getwd := .ok (bytes "/bot"), mkdirAll := none, read := none }

/-- A persistence file with the entry "a", whose name field is "a". -/
def fileNamedA : FileData :=
  .document (.object [(bytes "a",
    .object [(bytes "name", .string (bytes "a")), (bytes "url", .string (bytes "http://x/a.png"))])])

/-- A persistence file with the entry "a", whose name field is "b". -/
def fileMislabelled : FileData :=
  .document (.object [(bytes "a",
    .object [(bytes "name", .string (bytes "b")), (bytes "url", .string (bytes "http://x/b.png"))])])

/-- A persistence file that is well-formed JSON with two entries: "ok" is a complete
record, and "bad" has a number where the name field needs a string. -/
def fileWrongType : FileData :=
  .document (.object
    [(bytes "ok",
       .object [(bytes "name", .string (bytes "ok")),
                (bytes "url", .string (bytes "http://x/ok.png"))]),
     (bytes "bad",
       .object [(bytes "name", .number (bytes "5")),
                (bytes "url", .string (bytes "http://x/bad.png"))])])

/-- A persistence file that is a JSON object with two entries: "a" has a number in
the place of a record, and "b" has a record whose tags are a string. -/
def fileNumberEntry : FileData :=
  .document (.object
    [(bytes "a", .number (bytes "5")),
     (bytes "b",
       .object [(bytes "name", .string (bytes "b")), (bytes "tags", .string (bytes "x"))])])

/-- The document of n arrays nested in one another around null. -/
def nested : Nat → JSON
  | 0 => .null
  | n + 1 => .array [nested n]

/-! ## Theorems -/

/-! ### Checks of the embedded library functions -/

theorem Base_examples :
    Base (bytes "a/b/") = bytes "b" ∧ Base (bytes "///") = bytes "/" ∧ Base [] = bytes "." ∧
    Base (bytes "../../etc/passwd") = bytes "passwd" ∧ Base (bytes "a/..") = bytes ".." := by
  decide

theorem Ext_examples :
    Ext (bytes "a.b/c.tar.gz") = bytes ".gz" ∧ Ext (bytes "a.b/c") = [] ∧
    Ext (bytes "x.") = bytes "." ∧ Ext (bytes ".bashrc") = bytes ".bashrc" := by
  decide

theorem Clean_examples :
    Clean (bytes "/../a//b/./c/..") = bytes "/a/b" ∧
    Clean (bytes "../../a/../..") = bytes "../../.." ∧
    Clean (bytes "a/..") = bytes "." ∧ Clean (bytes "/..") = bytes "/" ∧
    Clean [] = bytes "." ∧ Clean (bytes "resources//x.png") = bytes "resources/x.png" := by
  decide

theorem localPath_examples :
    localPath (bytes "a") (bytes "a2.gif") = bytes "resources/a.gif" ∧
    localPath (bytes "../../etc/passwd") (bytes "noext") = bytes "resources/passwd.png" ∧
    localPath (bytes "..") (bytes "x.png") = bytes "resources/...png" := by
  decide

theorem utf8_examples :
    ValidString (bytes "héllo ſK") = true ∧ ValidString [0xC3] = false ∧
    ValidString [0xED, 0xA0, 0x80] = false ∧ ValidString [0xC0, 0x80] = false ∧
    coerceUTF8 [0x61, 0xFF, 0xC3, 0xA9, 0xC3] =
      [0x61, 0xEF, 0xBF, 0xBD, 0xC3, 0xA9, 0xEF, 0xBF, 0xBD] := by
  decide

theorem fieldOf_examples :
    fieldOf (bytes "Name") = some .name ∧ fieldOf (bytes "ADDED_BY") = some .addedBy ∧
    fieldOf (bytes "tagſ") = some .tags ∧ fieldOf (bytes "addedby") = none ∧
    fieldOf (bytes "localPath") = none := by
  decide

theorem storeSticker_examples :
    storeSticker (.object [(bytes "name", .string (bytes "a")), (bytes "name", .null),
        (bytes "extra", .bool true), (bytes "tags", .array [.string (bytes "x"), .null])]) =
      (⟨bytes "a", [], some [bytes "x", []], [], [], []⟩, false) ∧
    storeSticker (.object [(bytes "tags", .array [.string (bytes "a"), .string (bytes "b")]),
        (bytes "tags", .array [.string (bytes "x")]),
        (bytes "tags", .array [.null, .null])]) =
      (⟨[], [], some [bytes "x", bytes "b"], [], [], []⟩, false) ∧
    storeSticker (.object [(bytes "url", .number (bytes "5"))]) = (Sticker.zero, true) ∧
    storeSticker .null = (Sticker.zero, false) ∧
    storeSticker (.array []) = (Sticker.zero, true) := by
  decide

theorem depth_examples :
    JSON.null.depth = 0 ∧ (JSON.array []).depth = 1 ∧
    (JSON.object [(bytes "a", .array [.null, .array []]), (bytes "b", .null)]).depth = 3 ∧
    (Marshal (some sampleMap)).depth = 3 := by
  decide

theorem Unmarshal_too_deep (doc : JSON) (cur : Option StickerMap)
    (h : maxNestingDepth < doc.depth) :
    Unmarshal (.document doc) cur = (cur, some .malformedText) := by
  simp [Unmarshal, h]

theorem Unmarshal_object (ms : List (GoString × JSON)) (cur : Option StickerMap)
    (h : (JSON.object ms).depth ≤ maxNestingDepth) :
    Unmarshal (.document (.object ms)) cur =
      (some (ms.foldl storeEntry (cur.getD ∅, false)).1,
        if (ms.foldl storeEntry (cur.getD ∅, false)).2 then some .typeMismatch else none) := by
  simp [Unmarshal, Nat.not_lt.mpr h]

theorem depth_nested (n : Nat) : (nested n).depth = n := by
  induction n with
  | zero => rfl
  | succ n ih => simp [nested, JSON.depth, depthList, ih]; omega

theorem depth_object_pair (k1 k2 : GoString) (v1 v2 : JSON) :
    (JSON.object [(k1, v1), (k2, v2)]).depth = 1 + max v1.depth (max v2.depth 0) := rfl

theorem Unmarshal_depth_limit :
    Unmarshal (.document (.object [(bytes "a", nested 10000), (bytes "b", .number (bytes "5"))]))
        (some ∅) = (some ∅, some .malformedText) ∧
    (Unmarshal (.document (.object [(bytes "a", nested 9999), (bytes "b", .number (bytes "5"))]))
        (some ∅)).2 = some .typeMismatch := by
  constructor
  · apply Unmarshal_too_deep
    rw [depth_object_pair, depth_nested]
    decide
  · rw [Unmarshal_object]
    · simp [storeEntry, storeSticker]
    · rw [depth_object_pair, depth_nested]
      decide

theorem Unmarshal_examples :
    Unmarshal (.document .null) (some ∅) = (none, none) ∧
    Unmarshal (.document (.array [])) (some ∅) = (some ∅, some .typeMismatch) ∧
    Unmarshal (.malformed []) (some ∅) = (some ∅, some .malformedText) ∧
    Unmarshal (.document (.object [(bytes "a", .number (bytes "5"))])) (some ∅) =
      (some ((∅ : StickerMap).insert (bytes "a") Sticker.zero), some .typeMismatch) := by
  decide

/-! ### Lemmas -/

theorem depthList_strings (l : List GoString) (f : GoString → GoString) :
    depthList (l.map (fun t => JSON.string (f t))) = 0 := by
  induction l with
  | nil => rfl
  | cons t r ih => simp [depthList, JSON.depth, ih]

theorem depth_marshalTags (tags : Option (List GoString)) : (marshalTags tags).depth ≤ 1 := by
  cases tags with
  | none => simp [marshalTags, JSON.depth]
  | some l => simp [marshalTags, JSON.depth, depthList_strings l coerceUTF8]

theorem depth_marshalSticker (s : Sticker) : (marshalSticker s).depth ≤ 2 := by
  have ht := depth_marshalTags s.Tags
  by_cases hlp : s.LocalPath = []
  · simp only [marshalSticker, hlp, if_true, List.append_nil, JSON.depth, depthMembers]
    omega
  · simp only [marshalSticker, hlp, if_false, List.cons_append, List.nil_append, JSON.depth,
      depthMembers]
    omega

theorem depthMembers_marshal (L : List (Sigma (fun _ : GoString => Sticker))) :
    depthMembers (L.map (fun e => (coerceUTF8 e.1, marshalSticker e.2))) ≤ 2 := by
  induction L with
  | nil => simp [depthMembers]
  | cons e L ih =>
    have he := depth_marshalSticker e.2
    simp only [List.map_cons, depthMembers]
    omega

theorem depth_Marshal (m : Option StickerMap) : (Marshal m).depth ≤ maxNestingDepth := by
  cases m with
  | none => simp [Marshal, JSON.depth]
  | some l =>
    have h := depthMembers_marshal (sortedEntries l)
    simp only [Marshal, JSON.depth, maxNestingDepth]
    omega

theorem coerceFrom_of_valid (s : GoString) :
    ∀ k, validFrom k s = true → coerceFrom k s = s := by
  induction s with
  | nil => intro k _; cases k <;> rfl
  | cons b r ih =>
    intro k h
    cases k with
    | succ k => simp only [validFrom] at h; simp [coerceFrom, ih k h]
    | zero =>
      simp only [validFrom] at h
      simp only [coerceFrom]
      cases hw : runeWidth (b :: r) with
      | zero => simp [hw] at h
      | succ n =>
        simp only [hw] at h
        simp [ih n h]

theorem coerceUTF8_of_valid (s : GoString) (h : ValidString s = true) : coerceUTF8 s = s :=
  coerceFrom_of_valid s 0 h

theorem storeElems_strings (l : List GoString) :
    ∀ slots, storeElems (l.map (fun t => JSON.string t)) slots = (l, false) := by
  induction l with
  | nil => intro slots; rfl
  | cons t r ih => intro slots; simp [storeElems, storeString, ih]

theorem map_coerce_of_valid (l : List GoString) (h : l.all ValidString = true) :
    l.map coerceUTF8 = l := by
  induction l with
  | nil => rfl
  | cons t r ih =>
    simp only [List.all_cons, Bool.and_eq_true] at h
    simp [coerceUTF8_of_valid t h.1, ih h.2]

theorem storeTags_marshalTags (tags : Option (List GoString))
    (h : (tags.getD []).all ValidString = true) :
    storeTags (marshalTags tags) none [] = (tags, [], false) := by
  cases tags with
  | none => rfl
  | some l =>
    have hl : l.map (fun t => JSON.string (coerceUTF8 t)) =
        (l.map coerceUTF8).map (fun t => JSON.string t) := by simp
    simp only [Option.getD_some] at h
    simp only [marshalTags]
    rw [hl, map_coerce_of_valid l h]
    cases l with
    | nil => rfl
    | cons t r =>
      have he := storeElems_strings (t :: r) []
      simp only [List.map_cons] at he
      simp [storeTags, he]

theorem fieldOf_name : fieldOf (bytes "name") = some .name := by decide
theorem fieldOf_url : fieldOf (bytes "url") = some .url := by decide
theorem fieldOf_tags : fieldOf (bytes "tags") = some .tags := by decide
theorem fieldOf_added_by : fieldOf (bytes "added_by") = some .addedBy := by decide
theorem fieldOf_added_at : fieldOf (bytes "added_at") = some .addedAt := by decide
theorem fieldOf_local_path : fieldOf (bytes "local_path") = some .localPath := by decide

theorem storeSticker_marshalSticker (s : Sticker) (h : validSticker s = true) :
    storeSticker (marshalSticker s) = (s, false) := by
  obtain ⟨name, url, tags, addedBy, addedAt, lp⟩ := s
  simp only [validSticker, Bool.and_eq_true] at h
  obtain ⟨⟨⟨⟨⟨h1, h2⟩, h3⟩, h4⟩, h5⟩, h6⟩ := h
  have e1 := coerceUTF8_of_valid _ h1
  have e2 := coerceUTF8_of_valid _ h2
  have e4 := coerceUTF8_of_valid _ h4
  have e5 := coerceUTF8_of_valid _ h5
  have e6 := coerceUTF8_of_valid _ h6
  have etags := storeTags_marshalTags tags h3
  by_cases hlp : lp = []
  · subst hlp
    simp [storeSticker, marshalSticker, storeMember, fieldOf_name, fieldOf_url, fieldOf_tags,
      fieldOf_added_by, fieldOf_added_at, storeString, Sticker.zero, e1, e2, e4, e5, etags]
  · simp [storeSticker, marshalSticker, storeMember, fieldOf_name, fieldOf_url, fieldOf_tags,
      fieldOf_added_by, fieldOf_added_at, fieldOf_local_path, storeString, Sticker.zero,
      e1, e2, e4, e5, e6, etags, hlp]

theorem foldl_storeEntry_marshal (L : List (Sigma (fun _ : GoString => Sticker))) :
    L.NodupKeys → (∀ e ∈ L, ValidString e.1 = true ∧ validSticker e.2 = true) →
    ∀ (acc : StickerMap) (err : Bool),
      ((L.map (fun e => (coerceUTF8 e.1, marshalSticker e.2))).foldl storeEntry (acc, err)).2 = err ∧
      ∀ k, ((L.map (fun e => (coerceUTF8 e.1, marshalSticker e.2))).foldl storeEntry
          (acc, err)).1.lookup k =
        match L.dlookup k with
        | some v => some v
        | none => acc.lookup k := by
  induction L with
  | nil => intro _ _ acc err; simp
  | cons e L ih =>
    intro hnd hv acc err
    obtain ⟨key, st⟩ := e
    have hnd2 := List.nodupKeys_cons.mp hnd
    have hve := hv ⟨key, st⟩ (List.mem_cons_self _ _)
    have hrest : ∀ e ∈ L, ValidString e.1 = true ∧ validSticker e.2 = true :=
      fun e he => hv e (List.mem_cons_of_mem _ he)
    have hstep : storeEntry (acc, err) (coerceUTF8 key, marshalSticker st) =
        (acc.insert key st, err) := by
      simp [storeEntry, coerceUTF8_of_valid key hve.1, storeSticker_marshalSticker st hve.2]
    simp only [List.map_cons, List.foldl_cons, hstep]
    obtain ⟨ih1, ih2⟩ := ih hnd2.2 hrest (acc.insert key st) err
    refine ⟨ih1, ?_⟩
    intro k
    rw [ih2 k]
    by_cases hk : k = key
    · subst hk
      have hnone : List.dlookup k L = none := List.dlookup_eq_none.mpr hnd2.1
      simp [hnone, List.dlookup_cons_eq, AList.lookup_insert]
    · have hne : List.dlookup k (⟨key, st⟩ :: L) = List.dlookup k L :=
        List.dlookup_cons_ne L ⟨key, st⟩ hk
      rw [hne, AList.lookup_insert_ne hk]

theorem valid_of_validMap (l : StickerMap) (h : validMap (some l) = true) :
    ∀ e ∈ l.entries, ValidString e.1 = true ∧ validSticker e.2 = true := by
  intro e he
  simp only [validMap, mapKeys, mapValues, Bool.and_eq_true, List.all_eq_true] at h
  refine ⟨h.1 e.1 ?_, h.2 e.2 (List.mem_map_of_mem _ he)⟩
  exact List.mem_keys.mpr ⟨e.2, he⟩

theorem keysEqNames_of_keyed (m : Option StickerMap) (h : Keyed m) : KeysEqNames m := by
  cases m with
  | none => intro x; simp [mapKeys, mapValues]
  | some l =>
    intro x
    simp only [mapKeys, mapValues, List.mem_map]
    constructor
    · intro hx
      obtain ⟨s, hs⟩ := List.mem_keys.mp hx
      have hl : l.lookup x = some s := AList.mem_lookup_iff.mpr hs
      exact ⟨s, ⟨⟨x, s⟩, hs, rfl⟩, h x s hl⟩
    · rintro ⟨s, ⟨e, he, rfl⟩, rfl⟩
      obtain ⟨k, v⟩ := e
      have hl : l.lookup k = some v := AList.mem_lookup_iff.mpr he
      have hk : v.Name = k := h k v hl
      simp only
      rw [hk]
      exact List.mem_keys.mpr ⟨v, he⟩

theorem keyed_insert (m : StickerMap) (k : GoString) (s : Sticker) (h : Keyed (some m))
    (hs : s.Name = k) : Keyed (some (m.insert k s)) := by
  intro k2 s2 h2
  simp only [mapGet] at h2
  by_cases hk : k2 = k
  · subst hk
    rw [AList.lookup_insert] at h2
    cases h2
    exact hs
  · rw [AList.lookup_insert_ne hk] at h2
    exact h k2 s2 h2

theorem keyed_erase (m : StickerMap) (k : GoString) (h : Keyed (some m)) :
    Keyed (some (m.erase k)) := by
  intro k2 s2 h2
  simp only [mapGet] at h2
  by_cases hk : k2 = k
  · subst hk
    rw [AList.lookup_erase] at h2
    cases h2
  · rw [AList.lookup_erase_ne hk] at h2
    exact h k2 s2 h2

theorem keyed_none : Keyed none := by
  intro k s h
  cases h

theorem keyed_empty : Keyed (some ∅) := by
  intro k s h
  simp [mapGet] at h

theorem keyed_AddSticker (p : Process) (sticker : Sticker) (wr : WriteResult)
    (h : Keyed p.stickers) : Keyed (AddSticker p sticker wr).state.stickers := by
  obtain ⟨man, once, file, images⟩ := p
  cases man with
  | none => simpa [AddSticker, Outcome.state] using h
  | some sm =>
    obtain ⟨st, mu, fp⟩ := sm
    simp only [Process.stickers] at h
    cases mu with
    | true => simpa [AddSticker, Outcome.state, Process.stickers] using h
    | false =>
      by_cases hex : (mapGet st sticker.Name).isSome = true
      · simpa [AddSticker, Outcome.state, Process.stickers, Process.withManager, hex] using h
      · cases st with
        | none =>
          simpa [AddSticker, Outcome.state, Process.stickers, Process.withManager, mapGet]
            using h
        | some m =>
          have hk := keyed_insert m sticker.Name sticker h rfl
          simpa [AddSticker, Outcome.state, Process.stickers, Process.withManager, hex,
            saveStickers] using hk

theorem keyed_DeleteSticker (p : Process) (name : GoString) (wr : WriteResult)
    (h : Keyed p.stickers) : Keyed (DeleteSticker p name wr).state.stickers := by
  obtain ⟨man, once, file, images⟩ := p
  cases man with
  | none => simpa [DeleteSticker, Outcome.state] using h
  | some sm =>
    obtain ⟨st, mu, fp⟩ := sm
    simp only [Process.stickers] at h
    cases mu with
    | true => simpa [DeleteSticker, Outcome.state, Process.stickers] using h
    | false =>
      by_cases hex : (mapGet st name).isNone = true
      · simpa [DeleteSticker, Outcome.state, Process.stickers, Process.withManager, hex] using h
      · cases st with
        | none => simp [mapGet] at hex
        | some m =>
          have hk := keyed_erase m name h
          simpa [DeleteSticker, Outcome.state, Process.stickers, Process.withManager, hex,
            saveStickers] using hk

theorem keyed_HandleUploadedImage (p : Process) (name : GoString)
    (attachment : MessageAttachment) (addedBy : GoString) (env : UploadEnv)
    (h : Keyed p.stickers) :
    Keyed (HandleUploadedImage p name attachment addedBy env).state.stickers := by
  obtain ⟨man, once, file, images⟩ := p
  obtain ⟨get, create, copy, now, write⟩ := env
  cases get with
  | error e => simpa [HandleUploadedImage, Outcome.state] using h
  | ok body =>
    cases create with
    | some e => simpa [HandleUploadedImage, Outcome.state] using h
    | none =>
      cases copy with
      | some ew =>
        obtain ⟨e, written⟩ := ew
        simpa [HandleUploadedImage, Outcome.state, Process.stickers] using h
      | none =>
        cases man with
        | none => simpa [HandleUploadedImage, Outcome.state] using h
        | some sm =>
          obtain ⟨st, mu, fp⟩ := sm
          simp only [Process.stickers] at h
          cases mu with
          | true => simpa [HandleUploadedImage, Outcome.state, Process.stickers] using h
          | false =>
            cases st with
            | none =>
              simpa [HandleUploadedImage, Outcome.state, Process.stickers, Process.withManager]
                using h
            | some m =>
              have hk := keyed_insert m name
                { Name := name, URL := attachment.URL, Tags := none, AddedBy := addedBy,
                  AddedAt := now, LocalPath := localPath name attachment.Filename } h rfl
              cases write with
              | ok =>
                simpa [HandleUploadedImage, Outcome.state, Process.stickers,
                  Process.withManager, saveStickers] using hk
              | failed e left =>
                simpa [HandleUploadedImage, Outcome.state, Process.stickers,
                  Process.withManager, saveStickers] using hk

theorem keyed_perform (p : Process) (c : Call) (h : Keyed p.stickers) :
    Keyed (c.perform p).state.stickers := by
  cases c with
  | add sticker wr => exact keyed_AddSticker p sticker wr h
  | delete name wr => exact keyed_DeleteSticker p name wr h
  | upload name attachment addedBy env =>
    exact keyed_HandleUploadedImage p name attachment addedBy env h

theorem keyed_run (cs : List Call) : ∀ p : Process, Keyed p.stickers → Keyed (run p cs).stickers := by
  induction cs with
  | nil => intro p h; exact h
  | cons c cs ih =>
    intro p h
    have hc := keyed_perform p c h
    simp only [run]
    cases hout : c.perform p with
    | returned v q => rw [hout] at hc; exact ih q hc
    | blocked q => rw [hout] at hc; exact ih q hc
    | panicked q => rw [hout] at hc; exact hc

theorem keyed_foldl_storeEntry (ms : List (GoString × JSON)) :
    (∀ kv ∈ ms, (storeSticker kv.2).1.Name = kv.1) →
    ∀ (acc : StickerMap) (err : Bool), Keyed (some acc) →
      Keyed (some (ms.foldl storeEntry (acc, err)).1) := by
  induction ms with
  | nil => intro _ acc err h; exact h
  | cons kv ms ih =>
    intro hall acc err h
    simp only [List.foldl_cons]
    apply ih (fun x hx => hall x (List.mem_cons_of_mem _ hx))
    exact keyed_insert acc kv.1 _ h (hall kv (List.mem_cons_self _ _))

theorem keyed_Unmarshal (data : FileData) (h : FileKeyed (some data)) :
    Keyed (Unmarshal data (some ∅)).1 := by
  cases data with
  | malformed raw => exact keyed_empty
  | document doc =>
    by_cases hd : maxNestingDepth < doc.depth
    · rw [Unmarshal_too_deep doc _ hd]
      exact keyed_empty
    · cases doc with
      | null => simpa [Unmarshal, hd] using keyed_none
      | object ms =>
        rw [Unmarshal_object ms _ (Nat.le_of_not_lt hd)]
        exact keyed_foldl_storeEntry ms h ∅ false keyed_empty
      | bool b => simpa [Unmarshal, hd] using keyed_empty
      | number n => simpa [Unmarshal, hd] using keyed_empty
      | string t => simpa [Unmarshal, hd] using keyed_empty
      | array es => simpa [Unmarshal, hd] using keyed_empty

theorem keyed_InitStickerManager (file : Option FileData) (env : InitEnv) (h : FileKeyed file) :
    Keyed (InitStickerManager (Process.start file) env).state.stickers := by
  obtain ⟨getwd, mkdirAll, read⟩ := env
  cases getwd with
  | error e => simpa [InitStickerManager, freshManager, Process.start, Outcome.state, Process.stickers]
      using keyed_none
  | ok dir =>
    cases mkdirAll with
    | some e => simpa [InitStickerManager, freshManager, Process.start, Outcome.state, Process.stickers]
        using keyed_none
    | none =>
      cases file with
      | none =>
        simpa [InitStickerManager, freshManager, Process.start, Outcome.state, Process.stickers, loadStickers,
          Process.withManager] using keyed_empty
      | some data =>
        cases read with
        | some e =>
          simpa [InitStickerManager, freshManager, Process.start, Outcome.state, Process.stickers,
            loadStickers, Process.withManager] using keyed_empty
        | none =>
          have hk := keyed_Unmarshal data h
          cases herr : (Unmarshal data (some ∅)).2 with
          | none =>
            simpa [InitStickerManager, freshManager, Process.start, Outcome.state, Process.stickers,
              loadStickers, Process.withManager, herr] using hk
          | some e =>
            simpa [InitStickerManager, freshManager, Process.start, Outcome.state, Process.stickers,
              loadStickers, Process.withManager, herr] using hk

theorem fileKeyed_fileNamedA : FileKeyed (some fileNamedA) := by
  intro kv hkv
  simp only [List.mem_singleton] at hkv
  subst hkv
  decide

theorem mem_foldl_storeEntry (ms : List (GoString × JSON)) :
    ∀ (acc : StickerMap) (err : Bool) (k : GoString),
      (k ∈ acc.keys ∨ k ∈ ms.map (fun kv => kv.1)) →
      k ∈ (ms.foldl storeEntry (acc, err)).1.keys := by
  induction ms with
  | nil => intro acc err k h; simpa using h
  | cons kv ms ih =>
    intro acc err k h
    simp only [List.foldl_cons]
    apply ih
    simp only [storeEntry]
    rcases h with h | h
    · left
      exact AList.mem_keys.mp ((AList.mem_insert acc).mpr (Or.inr (AList.mem_keys.mpr h)))
    · simp only [List.map_cons, List.mem_cons] at h
      rcases h with h | h
      · left
        exact AList.mem_keys.mp ((AList.mem_insert acc).mpr (Or.inl h))
      · right
        exact h

/-- With the download and the writing of the local file done, `HandleUploadedImage`
reaches `saveStickers`, and then returns, exactly when a manager exists, no
operation holds its mutex and its map is not nil; otherwise the call waits for
the mutex or panics before the save. -/
theorem HandleUploadedImage_returns_iff (p : Process) (name : GoString)
    (attachment : MessageAttachment) (addedBy : GoString) (env : UploadEnv) (body : GoString)
    (hget : env.get = .ok body) (hcreate : env.create = none) (hcopy : env.copy = none) :
    (HandleUploadedImage p name attachment addedBy env).value ≠ none ↔
      ∃ sm m, p.manager = some sm ∧ sm.mutex = false ∧ sm.stickers = some m := by
  obtain ⟨man, once, file, images⟩ := p
  obtain ⟨get, create, copy, now, write⟩ := env
  simp only at hget hcreate hcopy
  subst hget hcreate hcopy
  cases man with
  | none => simp [HandleUploadedImage, Outcome.value]
  | some sm =>
    obtain ⟨st, mu, fp⟩ := sm
    cases mu with
    | true => simp [HandleUploadedImage, Outcome.value]
    | false =>
      cases st with
      | none => simp [HandleUploadedImage, Outcome.value, Process.withManager]
      | some m =>
        cases write with
        | ok => simp [HandleUploadedImage, Outcome.value, Process.withManager, saveStickers]
        | failed e left =>
          simp [HandleUploadedImage, Outcome.value, Process.withManager, saveStickers]

/-! ### The claims -/

/-- C1. `AddSticker` with a name that is not a key of the registry never returns:
in no process state does the call yield a value, and it writes no file. Called
while no operation holds the mutex on a registry whose map is not nil, it stores
the sticker and then waits for ever in `saveStickers` for the mutex it holds
itself. -/
theorem C1_AddSticker_new_name_never_returns (p : Process) (sticker : Sticker) (wr : WriteResult)
    (hnew : mapGet p.stickers sticker.Name = none) :
    (AddSticker p sticker wr).value = none ∧
    (AddSticker p sticker wr).state.file = p.file ∧
    ∀ sm m, p.manager = some sm → sm.mutex = false → sm.stickers = some m →
      AddSticker p sticker wr =
        .blocked (p.withManager
          { stickers := some (m.insert sticker.Name sticker), mutex := true,
            filePath := sm.filePath }) := by
  obtain ⟨man, once, file, images⟩ := p
  cases man with
  | none => simp [AddSticker, Outcome.value, Outcome.state]
  | some sm =>
    obtain ⟨st, mu, fp⟩ := sm
    simp only [Process.stickers] at hnew
    cases mu with
    | true =>
      refine ⟨by simp [AddSticker, Outcome.value], by simp [AddSticker, Outcome.state], ?_⟩
      intro sm m h1 h2
      cases h1
      simp at h2
    | false =>
      cases st with
      | none =>
        refine ⟨by simp [AddSticker, Outcome.value, mapGet],
          by simp [AddSticker, Outcome.state, mapGet, Process.withManager], ?_⟩
        intro sm m h1 _ h3
        cases h1
        simp at h3
      | some m =>
        refine ⟨by simp [AddSticker, hnew, saveStickers, Outcome.value, Process.withManager],
          by simp [AddSticker, hnew, saveStickers, Outcome.state, Process.withManager], ?_⟩
        intro sm m2 h1 _ h3
        cases h1
        cases h3
        simp [AddSticker, hnew, saveStickers, Process.withManager]

theorem C1_AddSticker_new_name_never_returns_witness :
    (AddSticker emptyRegistry stickerOk .ok).value = none ∧
    (AddSticker emptyRegistry stickerOk .ok).state.file = emptyRegistry.file ∧
    ∀ sm m, emptyRegistry.manager = some sm → sm.mutex = false → sm.stickers = some m →
      AddSticker emptyRegistry stickerOk .ok =
        .blocked (emptyRegistry.withManager
          { stickers := some (m.insert stickerOk.Name stickerOk), mutex := true,
            filePath := sm.filePath }) :=
  C1_AddSticker_new_name_never_returns emptyRegistry stickerOk .ok (by decide)

/-- C2. When the name of the sticker is already a key of the registry, and no other
operation holds the mutex, `AddSticker` returns the error "Sticker 'n' already
exists" and leaves the whole process state, the in-memory map and the
persistence file included, as it was; the answer of the file system to a write is
never asked for. -/
theorem C2_AddSticker_existing_name (p : Process) (sm : StickerManager) (sticker old : Sticker)
    (wr : WriteResult) (hm : p.manager = some sm) (hfree : sm.mutex = false)
    (hkey : mapGet sm.stickers sticker.Name = some old) :
    AddSticker p sticker wr =
      .returned (some (.text (bytes "Sticker '" ++ sticker.Name ++ bytes "' already exists"))) p := by
  obtain ⟨man, once, file, images⟩ := p
  obtain ⟨st, mu, fp⟩ := sm
  simp only at hm hfree hkey
  subst hm hfree
  simp [AddSticker, hkey, Process.withManager]

theorem C2_AddSticker_existing_name_witness :
    AddSticker registryA ⟨bytes "a", bytes "http://y/other.png", none, bytes "eve", bytes "t1", []⟩
        .ok =
      .returned (some (.text (bytes "Sticker '" ++ bytes "a" ++ bytes "' already exists")))
        registryA :=
  C2_AddSticker_existing_name registryA managerA _ stickerA .ok rfl rfl (by decide)

/-- C3. `DeleteSticker` of a name that is a key of the registry, called while no
operation holds the mutex, removes the entry and then calls `saveStickers` while
it still holds the write lock: the call waits for ever, with the mutex held and
no file written. -/
theorem C3_DeleteSticker_blocks_on_own_lock (p : Process) (sm : StickerManager)
    (name : GoString) (old : Sticker) (wr : WriteResult)
    (hm : p.manager = some sm) (hfree : sm.mutex = false)
    (hkey : mapGet sm.stickers name = some old) :
    DeleteSticker p name wr =
      .blocked (p.withManager
        { stickers := sm.stickers.map (fun m => m.erase name), mutex := true,
          filePath := sm.filePath }) := by
  obtain ⟨man, once, file, images⟩ := p
  obtain ⟨st, mu, fp⟩ := sm
  simp only at hm hfree hkey
  subst hm hfree
  simp [DeleteSticker, hkey, saveStickers, Process.withManager]

theorem C3_DeleteSticker_blocks_on_own_lock_witness :
    DeleteSticker registryA (bytes "a") .ok =
      .blocked (registryA.withManager
        { stickers := managerA.stickers.map (fun m => m.erase (bytes "a")), mutex := true,
          filePath := managerA.filePath }) :=
  C3_DeleteSticker_blocks_on_own_lock registryA managerA (bytes "a") stickerA .ok rfl rfl
    (by decide)

/-- C4. When the download, the writing of the local file and the save all succeed
(the save is reached when a manager exists, its map is not nil and no operation
holds the mutex), `HandleUploadedImage` returns nil; afterwards `GetSticker` of
the name returns the record built by this call, with the given name, the URL of
the attachment, the uploader, the local path just written and the time of this
call, whether or not the name was a key before; every other key maps to what it
mapped to before; the body was written at the local path and the persistence
file holds the encoding of the new map. -/
theorem C4_HandleUploadedImage_upserts (p : Process) (sm : StickerManager) (m : StickerMap)
    (name : GoString) (attachment : MessageAttachment) (addedBy : GoString) (env : UploadEnv)
    (body : GoString)
    (hm : p.manager = some sm) (hfree : sm.mutex = false) (hmap : sm.stickers = some m)
    (hget : env.get = .ok body) (hcreate : env.create = none) (hcopy : env.copy = none)
    (hwrite : env.write = .ok) :
    (HandleUploadedImage p name attachment addedBy env).value = some none ∧
    GetSticker (HandleUploadedImage p name attachment addedBy env).state name =
      .returned
        ({ Name := name, URL := attachment.URL, Tags := none, AddedBy := addedBy,
           AddedAt := env.now, LocalPath := localPath name attachment.Filename }, none)
        (HandleUploadedImage p name attachment addedBy env).state ∧
    (∀ k, k ≠ name →
      mapGet (HandleUploadedImage p name attachment addedBy env).state.stickers k =
        mapGet p.stickers k) ∧
    (HandleUploadedImage p name attachment addedBy env).state.images =
      (localPath name attachment.Filename, body) :: p.images ∧
    (HandleUploadedImage p name attachment addedBy env).state.file =
      some (.document
        (Marshal (HandleUploadedImage p name attachment addedBy env).state.stickers)) := by
  obtain ⟨man, once, file, images⟩ := p
  obtain ⟨st, mu, fp⟩ := sm
  obtain ⟨get, create, copy, now, write⟩ := env
  simp only at hm hfree hmap hget hcreate hcopy hwrite
  subst hm hfree hmap hget hcreate hcopy hwrite
  refine ⟨?_, ?_, ?_, ?_, ?_⟩
  · simp [HandleUploadedImage, saveStickers, Process.withManager, Outcome.value]
  · simp [HandleUploadedImage, saveStickers, Process.withManager, Outcome.state, GetSticker,
      mapGet]
  · intro k hk
    simp [HandleUploadedImage, saveStickers, Process.withManager, Outcome.state,
      Process.stickers, mapGet, AList.lookup_insert_ne hk]
  · simp [HandleUploadedImage, saveStickers, Process.withManager, Outcome.state]
  · simp [HandleUploadedImage, saveStickers, Process.withManager, Outcome.state,
      Process.stickers]

theorem C4_HandleUploadedImage_upserts_witness :
    (HandleUploadedImage registryA (bytes "a") ⟨bytes "http://cdn/a2.gif", bytes "a2.gif"⟩
      (bytes "eve") uploadOk).value = some none ∧
    GetSticker (HandleUploadedImage registryA (bytes "a") ⟨bytes "http://cdn/a2.gif", bytes "a2.gif"⟩
        (bytes "eve") uploadOk).state (bytes "a") =
      .returned
        ({ Name := bytes "a", URL := bytes "http://cdn/a2.gif", Tags := none, AddedBy := bytes "eve",
           AddedAt := bytes "2024-05-01T10:00:00Z",
           LocalPath := localPath (bytes "a") (bytes "a2.gif") }, none)
        (HandleUploadedImage registryA (bytes "a") ⟨bytes "http://cdn/a2.gif", bytes "a2.gif"⟩
          (bytes "eve") uploadOk).state ∧
    (∀ k, k ≠ bytes "a" →
      mapGet (HandleUploadedImage registryA (bytes "a") ⟨bytes "http://cdn/a2.gif", bytes "a2.gif"⟩
        (bytes "eve") uploadOk).state.stickers k = mapGet registryA.stickers k) ∧
    (HandleUploadedImage registryA (bytes "a") ⟨bytes "http://cdn/a2.gif", bytes "a2.gif"⟩
        (bytes "eve") uploadOk).state.images =
      (localPath (bytes "a") (bytes "a2.gif"), bytes "PNG2") :: registryA.images ∧
    (HandleUploadedImage registryA (bytes "a") ⟨bytes "http://cdn/a2.gif", bytes "a2.gif"⟩
        (bytes "eve") uploadOk).state.file =
      some (.document
        (Marshal (HandleUploadedImage registryA (bytes "a")
          ⟨bytes "http://cdn/a2.gif", bytes "a2.gif"⟩ (bytes "eve") uploadOk).state.stickers)) :=
  C4_HandleUploadedImage_upserts registryA managerA _ (bytes "a")
    ⟨bytes "http://cdn/a2.gif", bytes "a2.gif"⟩ (bytes "eve") uploadOk (bytes "PNG2")
    rfl rfl rfl rfl rfl rfl rfl

/-- C5. When the first call of `InitStickerManager` fails, at `os.Getwd` or at
`os.MkdirAll`, it reports the error and constructs no manager; every later call,
whatever the world answers, reports no error although `GetStickerManager` still
returns nil. -/
theorem C5_failed_first_init_is_forgotten (file : Option FileData) (e : GoString)
    (first later : InitEnv) (hfirst : first.getwd = .error e ∨
      (∃ dir, first.getwd = .ok dir) ∧ first.mkdirAll = some e) :
    (∃ err, (InitStickerManager (Process.start file) first).value = some (some err)) ∧
    GetStickerManager (InitStickerManager (Process.start file) first).state = none ∧
    InitStickerManager (InitStickerManager (Process.start file) first).state later =
      .returned none (InitStickerManager (Process.start file) first).state ∧
    GetStickerManager
      (InitStickerManager (InitStickerManager (Process.start file) first).state later).state =
        none := by
  obtain ⟨gw, mk, rd⟩ := first
  rcases hfirst with h | ⟨⟨dir, h⟩, h2⟩
  · simp only at h
    subst h
    simp [InitStickerManager, Process.start, Outcome.value, Outcome.state, GetStickerManager]
  · simp only at h h2
    subst h h2
    simp [InitStickerManager, Process.start, Outcome.value, Outcome.state, GetStickerManager]

theorem C5_failed_first_init_is_forgotten_witness :
    (∃ err, (InitStickerManager (Process.start none)
        ⟨.error (bytes "getwd: no such file or directory"), none, none⟩).value =
          some (some err)) ∧
    GetStickerManager (InitStickerManager (Process.start none)
        ⟨.error (bytes "getwd: no such file or directory"), none, none⟩).state = none ∧
    InitStickerManager (InitStickerManager (Process.start none)
        ⟨.error (bytes "getwd: no such file or directory"), none, none⟩).state
        ⟨.ok (bytes "/bot"), none, none⟩ =
      .returned none (InitStickerManager (Process.start none)
        ⟨.error (bytes "getwd: no such file or directory"), none, none⟩).state ∧
    GetStickerManager
      (InitStickerManager (InitStickerManager (Process.start none)
        ⟨.error (bytes "getwd: no such file or directory"), none, none⟩).state
        ⟨.ok (bytes "/bot"), none, none⟩).state = none :=
  C5_failed_first_init_is_forgotten none (bytes "getwd: no such file or directory")
    ⟨.error (bytes "getwd: no such file or directory"), none, none⟩
    ⟨.ok (bytes "/bot"), none, none⟩ (Or.inl rfl)

/-- C6, as amended. For every content of an existing persistence file for which
decoding reports an error, `loadStickers` on the newly constructed empty registry
returns an error, and `InitStickerManager` still returns nil. The map is left
empty when the content is not a JSON object nested at most `maxNestingDepth`
deep: syntactically malformed text, text nested too deep, and any JSON value
other than an object. When the content is a JSON object within that depth with
a value of a wrong type, the map is left holding an entry for every key of the
object, decoded as far as possible. -/
theorem C6_load_error (data : FileData) (e : UnmarshalError) (dir : GoString)
    (herr : (Unmarshal data (some ∅)).2 = some e) :
    loadStickers
        { manager := some (freshManager dir), onceDone := true, file := some data, images := [] }
        none =
      .returned (some (.wrap (bytes "Failed to parse sticker data") (.json e)))
        { manager := some { freshManager dir with stickers := (Unmarshal data (some ∅)).1 },
          onceDone := true, file := some data, images := [] } ∧
    InitStickerManager (Process.start (some data)) ⟨.ok dir, none, none⟩ =
      .returned none
        { manager := some { freshManager dir with stickers := (Unmarshal data (some ∅)).1 },
          onceDone := true, file := some data, images := [] } ∧
    ((∀ ms, data = .document (.object ms) → maxNestingDepth < (JSON.object ms).depth) →
      (Unmarshal data (some ∅)).1 = some ∅) ∧
    (∀ ms, data = .document (.object ms) → (JSON.object ms).depth ≤ maxNestingDepth →
      e = .typeMismatch ∧ ∀ kv ∈ ms, kv.1 ∈ mapKeys (Unmarshal data (some ∅)).1) := by
  refine ⟨?_, ?_, ?_, ?_⟩
  · simp [loadStickers, freshManager, Process.withManager, herr]
  · simp [InitStickerManager, Process.start, loadStickers, freshManager, Process.withManager,
      herr]
  · intro hno
    cases data with
    | malformed raw => rfl
    | document doc =>
      by_cases hd : maxNestingDepth < doc.depth
      · rw [Unmarshal_too_deep doc _ hd]
      · cases doc with
        | null => simp [Unmarshal, hd] at herr
        | object ms => exact absurd (hno ms rfl) hd
        | bool b => simp [Unmarshal, hd]
        | number n => simp [Unmarshal, hd]
        | string t => simp [Unmarshal, hd]
        | array es => simp [Unmarshal, hd]
  · intro ms hms hd
    subst hms
    rw [Unmarshal_object ms _ hd] at herr ⊢
    refine ⟨?_, ?_⟩
    · simp only at herr
      split at herr
      · cases herr
        rfl
      · cases herr
    · intro kv hkv
      simp only [Option.getD_some, mapKeys]
      exact mem_foldl_storeEntry ms ∅ false kv.1 (Or.inr (List.mem_map_of_mem _ hkv))

theorem C6_load_error_witness :
    loadStickers
        { manager := some (freshManager (bytes "/bot")), onceDone := true,
          file := some fileNumberEntry, images := [] }
        none =
      .returned (some (.wrap (bytes "Failed to parse sticker data") (.json .typeMismatch)))
        { manager := some { freshManager (bytes "/bot") with
            stickers := (Unmarshal fileNumberEntry (some ∅)).1 },
          onceDone := true, file := some fileNumberEntry, images := [] } ∧
    InitStickerManager (Process.start (some fileNumberEntry)) ⟨.ok (bytes "/bot"), none, none⟩ =
      .returned none
        { manager := some { freshManager (bytes "/bot") with
            stickers := (Unmarshal fileNumberEntry (some ∅)).1 },
          onceDone := true, file := some fileNumberEntry, images := [] } ∧
    ((∀ ms, fileNumberEntry = .document (.object ms) →
        maxNestingDepth < (JSON.object ms).depth) →
      (Unmarshal fileNumberEntry (some ∅)).1 = some ∅) ∧
    (∀ ms, fileNumberEntry = .document (.object ms) → (JSON.object ms).depth ≤ maxNestingDepth →
      UnmarshalError.typeMismatch = .typeMismatch ∧
        ∀ kv ∈ ms, kv.1 ∈ mapKeys (Unmarshal fileNumberEntry (some ∅)).1) :=
  C6_load_error fileNumberEntry .typeMismatch (bytes "/bot") (by decide)

/-- C6, counterexample. For a well-formed JSON file with a number in the place of a
name, decoding reports an error and `loadStickers` returns it, yet the map is
not left empty: it holds both entries of the file, and the registry that
`InitStickerManager` yields holds them too. -/
theorem C6_load_error_counterexample :
    (Unmarshal fileWrongType (some ∅)).2 = some .typeMismatch ∧
    (loadStickers
        { manager := some (freshManager (bytes "/bot")), onceDone := true,
          file := some fileWrongType, images := [] } none).value =
      some (some (.wrap (bytes "Failed to parse sticker data") (.json .typeMismatch))) ∧
    mapKeys (loadStickers
        { manager := some (freshManager (bytes "/bot")), onceDone := true,
          file := some fileWrongType, images := [] } none).state.stickers =
      [bytes "bad", bytes "ok"] ∧
    (InitStickerManager (Process.start (some fileWrongType)) initOk).value = some none ∧
    mapGet (InitStickerManager (Process.start (some fileWrongType)) initOk).state.stickers
        (bytes "ok") =
      some ⟨bytes "ok", bytes "http://x/ok.png", none, [], [], []⟩ ∧
    mapGet (InitStickerManager (Process.start (some fileWrongType)) initOk).state.stickers
        (bytes "bad") =
      some ⟨[], bytes "http://x/bad.png", none, [], [], []⟩ := by
  decide

/-- C7, as amended. When every entry of the JSON object in the persistence file
decodes to a record whose Name is the key of the entry (and also when there is
no file, or its content is not a JSON object), then in every state reached by
`InitStickerManager` followed by any sequence of `AddSticker`, `DeleteSticker`
and `HandleUploadedImage` calls, whatever the world answers, every key of the
in-memory map holds a record whose Name is that key, and so the set of keys
equals the set of Name fields of the values. -/
theorem C7_keys_equal_names (file : Option FileData) (env : InitEnv) (cs : List Call)
    (h : FileKeyed file) :
    Keyed (run (InitStickerManager (Process.start file) env).state cs).stickers ∧
    KeysEqNames (run (InitStickerManager (Process.start file) env).state cs).stickers := by
  have hk := keyed_run cs _ (keyed_InitStickerManager file env h)
  exact ⟨hk, keysEqNames_of_keyed _ hk⟩

theorem C7_keys_equal_names_witness :
    Keyed (run (InitStickerManager (Process.start (some fileNamedA)) initOk).state
      [.upload (bytes "b") ⟨bytes "http://cdn/b.gif", bytes "b.gif"⟩ (bytes "eve") uploadOk,
       .delete (bytes "a") .ok]).stickers ∧
    KeysEqNames (run (InitStickerManager (Process.start (some fileNamedA)) initOk).state
      [.upload (bytes "b") ⟨bytes "http://cdn/b.gif", bytes "b.gif"⟩ (bytes "eve") uploadOk,
       .delete (bytes "a") .ok]).stickers :=
  C7_keys_equal_names (some fileNamedA) initOk
    [.upload (bytes "b") ⟨bytes "http://cdn/b.gif", bytes "b.gif"⟩ (bytes "eve") uploadOk,
     .delete (bytes "a") .ok] fileKeyed_fileNamedA

/-- C7, counterexample. A persistence file whose entry "a" has the name field "b"
loads without error, and directly after initialization the only key of the map
is "a" while the only Name field is "b". -/
theorem C7_keys_equal_names_counterexample :
    (Unmarshal fileMislabelled (some ∅)).2 = none ∧
    (InitStickerManager (Process.start (some fileMislabelled)) initOk).value = some none ∧
    mapKeys (InitStickerManager (Process.start (some fileMislabelled)) initOk).state.stickers =
      [bytes "a"] ∧
    (mapValues (InitStickerManager (Process.start (some fileMislabelled)) initOk).state.stickers).map
      (fun s => s.Name) = [bytes "b"] ∧
    ¬ KeysEqNames (InitStickerManager (Process.start (some fileMislabelled)) initOk).state.stickers := by
  refine ⟨by decide, by decide, by decide, by decide, ?_⟩
  intro h
  have h1 := (h (bytes "a")).mp (by decide)
  exact absurd h1 (by decide)

/-- C8. For the name "." and an attachment file name that ends in a dot, the local
path that `HandleUploadedImage` passes to `os.Create` is ".", the working
directory; for the name "/" and such a file name it is "resources", the
resources directory itself. -/
theorem C8_localPath_leaves_resources :
    localPath (bytes ".") (bytes "x.") = bytes "." ∧
    localPath (bytes "/") (bytes "x.") = bytes "resources" ∧
    Base (bytes ".") = bytes "." ∧ Ext (bytes "x.") = bytes "." ∧
    Join (bytes "resources") (bytes "..") = bytes "." := by
  decide

/-- C9, as amended. For every mapping from names to stickers whose keys and string
fields are valid UTF-8, the empty mapping, nil and empty Tags and an empty
LocalPath included, decoding into an empty map the document that encoding the
mapping produces reports no error and yields a mapping in which every name maps
to exactly what it maps to in the original: the same keys, with records equal in
every field. -/
theorem C9_roundtrip_valid_utf8 (m : Option StickerMap) (h : validMap m = true) :
    (Unmarshal (.document (Marshal m)) (some ∅)).2 = none ∧
    ∀ k, mapGet (Unmarshal (.document (Marshal m)) (some ∅)).1 k = mapGet m k := by
  cases m with
  | none => simp [Marshal, Unmarshal, mapGet, JSON.depth]
  | some l =>
    have hperm : List.Perm (sortedEntries l) l.entries := List.perm_insertionSort _ _
    have hnd : (sortedEntries l).NodupKeys := (List.perm_nodupKeys hperm).mpr l.nodupKeys
    have hv : ∀ e ∈ sortedEntries l, ValidString e.1 = true ∧ validSticker e.2 = true :=
      fun e he => valid_of_validMap l h e (hperm.mem_iff.mp he)
    obtain ⟨h1, h2⟩ := foldl_storeEntry_marshal (sortedEntries l) hnd hv ∅ false
    have hdepth := depth_Marshal (some l)
    simp only [Marshal] at hdepth
    simp only [Marshal]
    rw [Unmarshal_object _ _ hdepth]
    refine ⟨?_, ?_⟩
    · simp [h1]
    · intro k
      have hk := h2 k
      rw [List.perm_dlookup k hnd l.nodupKeys hperm] at hk
      simp only [Option.getD_some, mapGet]
      rw [hk]
      simp only [AList.lookup_empty]
      cases hl : List.dlookup k l.entries with
      | none => simp [AList.lookup, hl]
      | some v => simp [AList.lookup, hl]

theorem C9_roundtrip_valid_utf8_witness :
    (Unmarshal (.document (Marshal (some sampleMap))) (some ∅)).2 = none ∧
    ∀ k, mapGet (Unmarshal (.document (Marshal (some sampleMap))) (some ∅)).1 k =
      mapGet (some sampleMap) k :=
  C9_roundtrip_valid_utf8 (some sampleMap) (by decide)

/-- C9, counterexample. For the mapping whose only name is the byte 0xFF, encoding
and decoding report no error, but the result has no entry under that name: its
only key is the three bytes of U+FFFD, and the Name field of the record is
U+FFFD as well. -/
theorem C9_roundtrip_counterexample :
    (Unmarshal (.document (Marshal (some invalidNameMap))) (some ∅)).2 = none ∧
    mapGet (some invalidNameMap) [0xFF] = some ⟨[0xFF], bytes "http://x/y.png", none, [], [], []⟩ ∧
    mapGet (Unmarshal (.document (Marshal (some invalidNameMap))) (some ∅)).1 [0xFF] = none ∧
    mapKeys (Unmarshal (.document (Marshal (some invalidNameMap))) (some ∅)).1 =
      [[0xEF, 0xBF, 0xBD]] ∧
    mapGet (Unmarshal (.document (Marshal (some invalidNameMap))) (some ∅)).1 [0xEF, 0xBF, 0xBD] =
      some ⟨[0xEF, 0xBF, 0xBD], bytes "http://x/y.png", none, [], [], []⟩ := by
  decide

/-- C10. Once `InitStickerManager` has run, `handleReloadCommand` changes nothing:
whatever the persistence file holds, the call leaves the process state as it
was, the in-memory registry included, and reports the count it found before the
call as the new count. -/
theorem C10_reload_does_not_reload (p : Process) (sm : StickerManager) (env : InitEnv)
    (honce : p.onceDone = true) (hm : p.manager = some sm) :
    handleReloadCommand p env =
      .returned (.reloaded (mapLen sm.stickers) (mapLen sm.stickers)) p := by
  simp [handleReloadCommand, GetStickerManager, InitStickerManager, hm, honce]

theorem C10_reload_does_not_reload_witness :
    handleReloadCommand { emptyRegistry with file := some fileA } ⟨.ok (bytes "/bot"), none, none⟩ =
      .returned (.reloaded 0 0) { emptyRegistry with file := some fileA } ∧
    mapGet (Unmarshal fileA (some ∅)).1 (bytes "a") = some stickerA ∧
    (Unmarshal fileA (some ∅)).2 = none ∧
    mapGet ({ emptyRegistry with file := some fileA } : Process).stickers (bytes "a") = none :=
  ⟨C10_reload_does_not_reload { emptyRegistry with file := some fileA }
      { stickers := some ∅, mutex := false, filePath := bytes "/bot/stickers.json" }
      ⟨.ok (bytes "/bot"), none, none⟩ rfl rfl,
    by decide, by decide, by decide⟩

end DiscordBot
